import Mathlib

/-!
Verification of the Drawly backend room engine (src/backend.js, v5.5.0).

This file gives a shallow embedding of the parts of the backend that the
frozen claims are about: the masking / hint-reveal word catalogue functions,
guess arbitration and scoring (`handleGuess`, `isCloseGuess`), the
`room:settings`, `chat:message` and `draw:*` socket handlers, the room
snapshot (`syncRoom`), turn transitions (`selectWord`, `endTurn`, the tick
interval), database rehydration (`reconstructRoomFromDb`) and the
empty-room cleanup / housekeeping-sweep timers.

Embedding conventions:
* JS numbers are embedded as `Nat`; every quantity involved is a small
  non-negative integer.  `Math.max(0, a - b)` on naturals is truncated
  subtraction.  `Math.floor((a / b) * 100)` is embedded as exact natural
  division `a * 100 / b` (the IEEE-double rounding of the quotient is
  abstracted away).
* JS strings are Lean `String`s; `split("")`/`join(" ")`/`split(" ")` are
  `List Char` operations on `String.data`.
* The JS `Map` of players is a list in insertion order; a JS `Set` is a
  duplicate-free list in insertion order.
* `Math.random()` choices (hint position) are an explicit `pick` argument.
* Socket emissions are returned as explicit `(Target × GameEvent)` lists;
  timer state is explicit where a claim needs it (`SysState`).
-/

namespace Drawly

/-- Room phases are plain strings in the JS code ("lobby", "waiting",
"choosing", "drawing", "roundEnd", "gameEnd"; the database additionally
stores "playing"), so the embedding keeps them as strings. -/
abbrev PhaseStr := String

/-- A player record, as built by the `room:create` / `room:join` handlers. -/
structure Player where
  id : String
  socketId : String
  name : String
  avatar : String
  score : Nat
  isHost : Bool
  isDrawing : Bool
  hasGuessed : Bool
  userId : Option String
deriving DecidableEq, Repr

/-- A room record, as built by `createRoom` (backend.js line 895). -/
structure Room where
  id : String
  code : String
  hostId : String
  isPrivate : Bool
  maxPlayers : Nat
  drawTime : Nat
  maxRounds : Nat
  theme : String
  phase : PhaseStr
  round : Nat
  turn : Nat
  currentDrawer : Option String
  currentWord : Option String
  maskedWord : String
  wordLength : Nat
  timeLeft : Nat
  players : List Player
  guessedPlayers : List String
  createdAt : Nat
deriving DecidableEq, Repr

/-- `room.players.get(pid)`: first (unique, for JS `Map`) player with this id. -/
def findPlayer (r : Room) (pid : String) : Option Player :=
  r.players.find? (fun p => p.id == pid)

/-- JS string truthiness check for an optional string (`undefined`, `null`
and the empty string are falsy), as in `roomData.theme || "general"`. -/
def jsOrStr (o : Option String) (d : String) : String :=
  match o with
  | none => d
  | some s => if s == "" then d else s

/-- JS truthiness for an optional numeric field (`undefined`, `null` and `0`
are falsy), as in `if (data.drawTime)`. -/
def truthyNat (o : Option Nat) : Bool :=
  match o with
  | none => false
  | some n => !(n == 0)

/-- JS falsiness of the current word (`!room.currentWord`): missing or empty. -/
def jsFalsyWord (o : Option String) : Bool :=
  match o with
  | none => true
  | some s => s == ""

/-- JS `s.toLowerCase()`, characterwise. -/
def jsToLower (s : String) : String :=
  String.mk (s.data.map Char.toLower)

/-- JS `s.trim()`: strip whitespace from both ends. -/
def jsTrim (s : String) : String :=
  String.mk (((s.data.dropWhile Char.isWhitespace).reverse.dropWhile
    Char.isWhitespace).reverse)

/-- JS `s.slice(0, n)`: the first `n` characters. -/
def jsSlice (s : String) (n : Nat) : String :=
  String.mk (s.data.take n)

/-! ### Word masking and hint reveal (backend.js lines 756-780) -/

/-- One cell of `maskWord`: `word.split("").map(c => c === " " ? "  " : "_")`. -/
def maskCellL (c : Char) : List Char :=
  if c = ' ' then [' ', ' '] else ['_']

/-- `maskWord` on the underlying character list: map to cells, `join(" ")`. -/
def maskWordL (w : List Char) : List Char :=
  List.intercalate [' '] (w.map maskCellL)

/-- `maskWord(word)` (backend.js line 756). -/
def maskWord (word : String) : String :=
  String.mk (maskWordL word.data)

/-- `masked.split(" ")`: the cell decomposition the hint-reveal code works on. -/
def splitCells (m : List Char) : List (List Char) :=
  m.splitOn ' '

/-- `revealHint(word, masked)` on character lists (backend.js line 763).
`pick` resolves `Math.floor(Math.random() * hiddenIndices.length)`: the
chosen element is `hiddenIndices[pick % hiddenIndices.length]`. -/
def revealHintL (word m : List Char) (pick : Nat) : List Char :=
  let cells := splitCells m
  let hiddenIndices := (List.range word.length).filter
    (fun i => !(word.getD i ' ' == ' ') && (cells.getD i [] == ['_']))
  if hiddenIndices.isEmpty then m
  else
    let revealIndex := hiddenIndices.getD (pick % hiddenIndices.length) 0
    List.intercalate [' '] (cells.set revealIndex [word.getD revealIndex ' '])

/-- `revealHint(word, masked)` (backend.js line 763). -/
def revealHint (word masked : String) (pick : Nat) : String :=
  String.mk (revealHintL word.data masked.data pick)

/-! ### Close-guess heuristic (backend.js lines 1250-1267) -/

/-- JS `hay.includes(needle)`: `needle` occurs contiguously in `hay`. -/
def jsIncludes (hay needle : String) : Bool :=
  (List.range (hay.data.length + 1)).any
    (fun i => ((hay.data.drop i).take needle.data.length) == needle.data)

/-- The per-position mismatch count of the close-guess check: positions
`i < max(|g|,|w|)` where `guess[i] !== word[i]` (an out-of-range access is
`undefined` and mismatches any character). -/
def mismatchCount (guess word : String) : Nat :=
  ((List.range (max guess.length word.length)).filter
    (fun i => !(guess.data.get? i == word.data.get? i))).length

/-- `isCloseGuess(guess, word)` (backend.js line 1250). -/
def isCloseGuess (guess word : String) : Bool :=
  if guess.length < 3 then false
  else
    let oneAway :=
      if ((guess.length : Int) - (word.length : Int)).natAbs ≤ 1 then
        mismatchCount guess word ≤ 2
      else
        false
    if oneAway then true
    else jsIncludes word guess || jsIncludes guess word

/-- The close-guess predicate in the spec's words (§4.4): not-correct guesses
are close iff the guess has at least 3 characters and either (a) the lengths
differ by at most one and at most two positions mismatch, or (b) one of the
two strings contains the other. -/
def closeGuessSpec (g w : String) : Prop :=
  3 ≤ g.length ∧
    ((((g.length : Int) - (w.length : Int)).natAbs ≤ 1 ∧ mismatchCount g w ≤ 2) ∨
      (jsIncludes w g = true ∨ jsIncludes g w = true))

/-! ### Guess arbitration and scoring (backend.js lines 1198-1248)

The time bonus is `Math.floor((room.timeLeft / room.drawTime) * 100)`
(line 1211), computed by JS in IEEE-754 binary64: the division and the
multiplication are each rounded to nearest, ties to even.  `jsTimeBonus`
below models that arithmetic exactly over ℕ/ℤ — dyadic significand/exponent
pairs with correct round-to-nearest-even at 53 bits — so it reproduces the
program's floor, which at some inputs (e.g. timeLeft 29, drawTime 50) is one
below the exact `timeLeft * 100 / drawTime`.  Exponent overflow and
subnormals cannot occur at the magnitudes involved and are not modelled. -/

/-- Fuel-driven ⌊log₂ n⌋; with fuel ≥ n the fuel never runs out, since the
recursion depth is at most log₂ n. -/
def log2fuel : Nat → Nat → Nat
  | 0, _ => 0
  | f + 1, n => if n ≤ 1 then 0 else log2fuel f (n / 2) + 1

/-- ⌊log₂ n⌋ (0 for n = 0), kernel-computable. -/
def natLog2 (n : Nat) : Nat := log2fuel n n

/-- Round `num / den` to the nearest integer, ties to even. -/
def rne (num den : Nat) : Nat :=
  let q := num / den
  let r := num % den
  if 2 * r < den then q
  else if den < 2 * r then q + 1
  else if q % 2 = 0 then q else q + 1

/-- Decide `b * 2^e ≤ a` for an integer exponent `e`. -/
def pow2le (b a : Nat) (e : Int) : Bool :=
  if 0 ≤ e then b * 2 ^ e.toNat ≤ a else b ≤ a * 2 ^ (-e).toNat

/-- The binary64 value nearest to `a / b` (ties to even), as a dyadic pair
`(m, e)` meaning `m * 2^e`, with 53-bit significand. -/
def flRatE (a b : Nat) : Nat × Int :=
  if a = 0 then (0, 0)
  else
    let e0 : Int := (natLog2 a : Int) - (natLog2 b : Int)
    let e : Int := if pow2le b a e0 then e0 else e0 - 1
    let s : Int := 52 - e
    let m := if 0 ≤ s then rne (a * 2 ^ s.toNat) b else rne a (b * 2 ^ (-s).toNat)
    (m, e - 52)

/-- The binary64 product of the dyadic `(m, e)` with the exact double 100:
multiply the significand and round back to 53 bits, ties to even. -/
def flMul100 (m : Nat) (e : Int) : Nat × Int :=
  let p := m * 100
  if p < 2 ^ 53 then (p, e)
  else
    let k := natLog2 p - 52
    (rne p (2 ^ k), e + k)

/-- `Math.floor` of a non-negative dyadic `(m, e)`. -/
def floorDy (m : Nat) (e : Int) : Nat :=
  if 0 ≤ e then m * 2 ^ e.toNat else m / 2 ^ (-e).toNat

/-- `Math.floor((timeLeft / drawTime) * 100)` in binary64 arithmetic, as the
program computes it.  `drawTime = 0` (JS Infinity/NaN) is unreachable: the
room default is 80 and the settings clamp keeps it in [30,180]. -/
def jsTimeBonus (timeLeft drawTime : Nat) : Nat :=
  if drawTime = 0 then 0
  else
    let q := flRatE timeLeft drawTime
    let p := flMul100 q.1 q.2
    floorDy p.1 p.2

/-- Result record returned by `handleGuess`. -/
structure GuessResult where
  isCorrect : Bool
  isClose : Bool
deriving DecidableEq, Repr

/-- `room.guessedPlayers.add(pid)`: JS `Set` insertion (append if absent). -/
def insertGuessed (gp : List String) (pid : String) : List String :=
  if gp.contains pid then gp else gp ++ [pid]

/-- Add `pts` to the score of every player whose id is `pid` (the JS `Map`
holds a unique such player; `+=` mutates it in place). -/
def bumpScore (ps : List Player) (pid : String) (pts : Nat) : List Player :=
  ps.map fun q => if q.id == pid then { q with score := q.score + pts } else q

/-- Set `hasGuessed` on the player whose id is `pid`. -/
def setHasGuessed (ps : List Player) (pid : String) : List Player :=
  ps.map fun q => if q.id == pid then { q with hasGuessed := true } else q

/-- Broadcast targets of the socket layer. -/
inductive Target where
  /-- `io.to(room.id).emit(...)`: every member of the room. -/
  | toRoom
  /-- `socket.to(room.id).emit(...)`: every member except the sender. -/
  | toRoomExceptSender
  /-- an emit on one client's socket (the drawer's, or the sender's own). -/
  | toSocket (pid : Option String)
deriving DecidableEq, Repr

/-- One chat-history entry (backend.js line 1738). -/
structure ChatMsg where
  id : String
  playerId : String
  playerName : String
  message : String
  timestamp : Nat
  isClose : Bool
  isGuess : Bool
deriving DecidableEq, Repr

/-- The player part of the `room:sync` payload (backend.js line 1342). -/
structure PlayerSnapshot where
  id : String
  name : String
  score : Nat
  isHost : Bool
  isDrawing : Bool
  hasGuessed : Bool
  avatar : String
  isConnected : Bool
deriving DecidableEq, Repr

/-- The room part of the `room:sync` payload (backend.js line 1354).  Note
that it has `wordLength` and `maskedWord` fields but no current-word field. -/
structure RoomSnapshot where
  id : String
  code : String
  phase : PhaseStr
  round : Nat
  turn : Nat
  maxRounds : Nat
  timeLeft : Nat
  drawTime : Nat
  currentDrawer : Option String
  wordLength : Nat
  maskedWord : String
  theme : String
  isPrivate : Bool
  maxPlayers : Nat
deriving DecidableEq, Repr

/-- Server-emitted events, one constructor per `emit` payload shape used by
the modelled handlers. -/
inductive GameEvent where
  | roomSync (room : RoomSnapshot) (players : List PlayerSnapshot)
  | gameWord (word : String)
  | chooseWord (words : List String)
  | turnStart (drawerId : Option String) (wordLength : Nat)
      (maskedWord : String) (timeLeft : Nat)
  | timeUpdate (timeLeft : Nat)
  | hint (maskedWord : String)
  | correctGuess (playerId : String) (playerName : String) (points : Nat)
  | turnEnd (word : Option String) (reason : String) (allGuessed : Bool)
  | chatMessage (msg : ChatMsg)
  | closeGuess (message : String)
  | drawStroke (data : String)
  | drawClear
  | drawUndo
deriving DecidableEq, Repr

/-- One emission: a target and an event. -/
abbrev Emit := Target × GameEvent

/-- `handleGuess(room, player, message, io)` (backend.js line 1198).  The
1-second "all guessed" settle timer scheduled on line 1236 is a timer and is
outside this state-passing embedding; everything else is translated. -/
def handleGuess (r : Room) (pid message : String) : Room × GuessResult × List Emit :=
  match findPlayer r pid with
  | none => (r, ⟨false, false⟩, [])
  | some player =>
    if jsFalsyWord r.currentWord || r.currentDrawer == some pid || player.hasGuessed then
      (r, ⟨false, false⟩, [])
    else
      let guess := jsTrim (jsToLower message)
      let word := jsToLower (r.currentWord.getD "")
      if guess == word then
        let gp := insertGuessed r.guessedPlayers pid
        let timeBonus := jsTimeBonus r.timeLeft r.drawTime
        let orderBonus := 100 - gp.length * 20
        let points := 100 + timeBonus + orderBonus
        let ps1 := bumpScore (setHasGuessed r.players pid) pid points
        let ps2 := match r.currentDrawer with
          | some d => if (ps1.find? (fun q => q.id == d)).isSome
                      then bumpScore ps1 d 25 else ps1
          | none => ps1
        ({ r with players := ps2, guessedPlayers := gp },
          ⟨true, false⟩,
          [(Target.toRoom, GameEvent.correctGuess pid player.name points)])
      else if isCloseGuess guess word then
        (r, ⟨false, true⟩, [])
      else
        (r, ⟨false, false⟩, [])

/-! ### Snapshot broadcast (backend.js lines 1341-1372) -/

/-- The room projection emitted by `syncRoom`: built field by field from the
room; `currentWord` is not among the copied fields. -/
def snapshotOf (r : Room) : RoomSnapshot :=
  { id := r.id, code := r.code, phase := r.phase, round := r.round,
    turn := r.turn, maxRounds := r.maxRounds, timeLeft := r.timeLeft,
    drawTime := r.drawTime, currentDrawer := r.currentDrawer,
    wordLength := r.wordLength, maskedWord := r.maskedWord, theme := r.theme,
    isPrivate := r.isPrivate, maxPlayers := r.maxPlayers }

/-- The players array of the `room:sync` payload. -/
def playerSnapshots (r : Room) : List PlayerSnapshot :=
  r.players.map fun p =>
    { id := p.id, name := p.name, score := p.score,
      isHost := r.hostId == p.id,
      isDrawing := r.currentDrawer == some p.id,
      hasGuessed := p.hasGuessed,
      avatar := jsOrStr (some p.avatar) "default",
      isConnected := true }

/-- `syncRoom(room, io)`: one `room:sync` broadcast to the whole room. -/
def syncEmit (r : Room) : Emit :=
  (Target.toRoom, GameEvent.roomSync (snapshotOf r) (playerSnapshots r))

/-! ### Turn transitions (backend.js lines 1147-1196 and 1269-1306) -/

/-- `selectWord(room, io, word)` (backend.js line 1147): enter the drawing
phase, mask the word, send the word privately to the drawer and broadcast
`game:turn_start`.  Starting the tick interval is modelled by `tick` below;
the DB write and the choose-timer cancellation carry no room state. -/
def selectWord (r : Room) (word : String) : Room × List Emit :=
  let r2 := { r with
    phase := "drawing", currentWord := some word,
    wordLength := word.length, maskedWord := maskWord word,
    timeLeft := r.drawTime }
  (r2,
    [(Target.toSocket r.currentDrawer, GameEvent.gameWord word),
     (Target.toRoom,
       GameEvent.turnStart r.currentDrawer word.length (maskWord word) r.drawTime)])

/-- `endTurn(room, io, reason)` (backend.js line 1269): enter roundEnd and
reveal the word to the whole room.  The 5-second next-turn timer scheduled
on line 1285 is outside this single-step embedding. -/
def endTurn (r : Room) (reason : String) : Room × List Emit :=
  ({ r with phase := "roundEnd" },
    [(Target.toRoom,
      GameEvent.turnEnd r.currentWord reason
        (decide (r.players.length - 1 ≤ r.guessedPlayers.length)))])

/-- One fire of the 1-second tick interval started by `selectWord`
(backend.js lines 1174-1190).  `pick` resolves the random hint position. -/
def tick (r : Room) (pick : Nat) : Room × List Emit :=
  let t := r.timeLeft - 1
  let r1 := { r with timeLeft := t }
  if t == 0 then
    endTurn r1 "Temps écoulé!"
  else
    if t % 20 == 0 && t < r.drawTime - 10 then
      let m2 := revealHint (r1.currentWord.getD "") r1.maskedWord pick
      ({ r1 with maskedWord := m2 },
        [(Target.toRoom, GameEvent.timeUpdate t), (Target.toRoom, GameEvent.hint m2)])
    else
      (r1, [(Target.toRoom, GameEvent.timeUpdate t)])

/-! ### chat:message handler (backend.js lines 1703-1758) -/

/-- Append to the chat history, evicting the oldest entry beyond 100
(`history.push(chatMsg); if (history.length > 100) history.shift()`). -/
def pushHistory (history : List ChatMsg) (m : ChatMsg) : List ChatMsg :=
  if (history ++ [m]).length > 100 then (history ++ [m]).tail else history ++ [m]

/-- The `chat:message` handler, after the transport resolution and the
wall-clock rate-limit gate (lines 1707-1718, which touch no room state).
`msgId` stands for `generateId()` and `now` for `Date.now()`. -/
def chatMessageHandler (r : Room) (history : List ChatMsg)
    (pid msgId : String) (now : Nat) (raw : String) :
    Room × List ChatMsg × List Emit :=
  match findPlayer r pid with
  | none => (r, history, [])
  | some player =>
    if raw == "" then (r, history, [])
    else
      let message := jsTrim (jsSlice raw 200)
      if message == "" then (r, history, [])
      else
        let gate := r.phase == "drawing" && !(r.currentDrawer == some pid)
          && !player.hasGuessed
        let res := if gate then handleGuess r pid message
                   else (r, ⟨false, false⟩, [])
        if res.2.1.isCorrect then
          (res.1, history, res.2.2 ++ [syncEmit res.1])
        else
          let chatMsg : ChatMsg :=
            { id := msgId, playerId := pid, playerName := player.name,
              message := message, timestamp := now,
              isClose := res.2.1.isClose,
              isGuess := r.phase == "drawing" && !(r.currentDrawer == some pid) }
          (res.1, pushHistory history chatMsg,
            res.2.2 ++ [(Target.toRoom, GameEvent.chatMessage chatMsg)] ++
              (if res.2.1.isClose
               then [(Target.toSocket (some pid), GameEvent.closeGuess "Tu es proche!")]
               else []))

/-! ### room:settings handler (backend.js lines 1652-1665) -/

/-- Payload of `room:settings`. -/
structure SettingsData where
  drawTime : Option Nat
  maxRounds : Option Nat
deriving DecidableEq, Repr

/-- Reply envelope of `room:settings`. -/
structure SettingsReply where
  success : Bool
deriving DecidableEq, Repr

/-- The settings mutation of the handler: each field is updated only when the
payload field is truthy, clamped by `Math.max(lo, Math.min(hi, x))`. -/
def applySettings (r : Room) (data : SettingsData) : Room :=
  let r1 := if truthyNat data.drawTime
            then { r with drawTime := max 30 (min 180 (data.drawTime.getD 0)) }
            else r
  if truthyNat data.maxRounds
  then { r1 with maxRounds := max 1 (min 10 (data.maxRounds.getD 0)) }
  else r1

/-- `Array.from(rooms.values()).find(r => r.players.has(player.id))`. -/
def findRoomOf (rooms : List Room) (pid : String) : Option Room :=
  rooms.find? (fun r => (findPlayer r pid).isSome)

/-- Replace the room with the given id (the JS handler mutates it in place). -/
def replaceRoom (rooms : List Room) (rid : String) (r2 : Room) : List Room :=
  rooms.map (fun q => if q.id == rid then r2 else q)

/-- The `room:settings` handler (backend.js line 1652): fails when the sender
is in no room or is not the host; otherwise applies the clamped updates and
replies success.  There is no phase test in the handler. -/
def roomSettingsHandler (rooms : List Room) (pid : String) (data : SettingsData) :
    List Room × SettingsReply :=
  match findRoomOf rooms pid with
  | none => (rooms, ⟨false⟩)
  | some r =>
    if !(r.hostId == pid) then (rooms, ⟨false⟩)
    else
      (replaceRoom rooms r.id (applySettings r data), ⟨true⟩)

/-! ### draw:stroke / draw:clear / draw:undo handlers (backend.js 1761-1789) -/

/-- The `draw:stroke` handler: forwards the payload verbatim to every other
room member iff the sender is in a room and is its `currentDrawer`. -/
def drawStrokeHandler (rooms : List Room) (pid data : String) : List Emit :=
  match findRoomOf rooms pid with
  | none => []
  | some r =>
    if !(r.currentDrawer == some pid) then []
    else [(Target.toRoomExceptSender, GameEvent.drawStroke data)]

/-- The `draw:clear` handler (same guard, empty payload). -/
def drawClearHandler (rooms : List Room) (pid : String) : List Emit :=
  match findRoomOf rooms pid with
  | none => []
  | some r =>
    if !(r.currentDrawer == some pid) then []
    else [(Target.toRoomExceptSender, GameEvent.drawClear)]

/-- The `draw:undo` handler (same guard, empty payload). -/
def drawUndoHandler (rooms : List Room) (pid : String) : List Emit :=
  match findRoomOf rooms pid with
  | none => []
  | some r =>
    if !(r.currentDrawer == some pid) then []
    else [(Target.toRoomExceptSender, GameEvent.drawUndo)]

/-! ### Database rehydration (backend.js lines 786-870) -/

/-- A row of the `rooms` table as read back by `getActiveRooms` /
`getRoomByCode` (snake_case columns as in the schema, line 278). -/
structure DbRoomRow where
  id : String
  code : String
  host_id : String
  is_private : Nat
  max_players : Nat
  draw_time : Nat
  max_rounds : Nat
  theme : Option String
  phase : Option String
  created_at : Nat
deriving DecidableEq, Repr

/-- A row of the `players` table as read back by `getPlayersByRoom`. -/
structure DbPlayerRow where
  id : String
  socket_id : String
  name : String
  avatar : Option String
  score : Nat
  is_host : Nat
  user_id : Option String
deriving DecidableEq, Repr

/-- `reconstructRoomFromDb(roomData)` (backend.js line 807), with the player
rows that `getPlayersByRoom` returns passed explicitly.  Note the phase:
`roomData.phase || "lobby"` keeps a truthy persisted phase. -/
def reconstructRoomFromDb (row : DbRoomRow) (dbPlayers : List DbPlayerRow) : Room :=
  { id := row.id, code := row.code, hostId := row.host_id,
    isPrivate := !(row.is_private == 0),
    maxPlayers := row.max_players, drawTime := row.draw_time,
    maxRounds := row.max_rounds,
    theme := jsOrStr row.theme "general",
    phase := jsOrStr row.phase "lobby",
    round := 0, turn := 0, currentDrawer := none, currentWord := none,
    maskedWord := "", wordLength := 0, timeLeft := 0,
    players := dbPlayers.map (fun p =>
      { id := p.id, socketId := p.socket_id, name := p.name,
        avatar := jsOrStr p.avatar "default", score := p.score,
        isHost := !(p.is_host == 0), isDrawing := false, hasGuessed := false,
        userId := p.user_id }),
    guessedPlayers := [], createdAt := row.created_at }

/-! ### Empty-room cleanup and the housekeeping sweep
(backend.js lines 1019-1040 and 1875-1897) -/

/-- `rooms.get(rid)` over the registry list. -/
def lookupRoom (rooms : List Room) (rid : String) : Option Room :=
  rooms.find? (fun r => r.id == rid)

/-- Delete a room from the registry. -/
def removeRoom (rooms : List Room) (rid : String) : List Room :=
  rooms.filter (fun r => !(r.id == rid))

/-- The callback of the 2-minute timer set by `scheduleRoomCleanup` (line
1021): destroy the room only if it still exists and is still empty. -/
def cleanupFire (rooms : List Room) (rid : String) : List Room :=
  match lookupRoom rooms rid with
  | some r => if r.players.isEmpty then removeRoom rooms rid else rooms
  | none => rooms

/-- One fire of the 5-minute housekeeping interval (line 1875): it deletes
every room whose player set is empty, with no check of how long the room has
been empty. -/
def sweepFire (rooms : List Room) : List Room :=
  rooms.filter (fun r => !r.players.isEmpty)

/-- `joinRoom(room, player)` (backend.js line 946), the room-state part. -/
def joinRoomL (r : Room) (p : Player) : Room :=
  { r with players := r.players ++ [p] }

/-- The room-state part of `leaveRoom` (backend.js line 970): remove the
player and transfer host to the earliest remaining member.  The drawer-left
`endTurn` branch (line 1014) is excluded by the lobby-phase precondition of
`SysStep.leave`; broadcasts and DB writes carry no room state. -/
def leaveRoomL (r : Room) (pid : String) : Room :=
  match findPlayer r pid with
  | none => r
  | some _ =>
    let ps := r.players.filter (fun p => !(p.id == pid))
    if r.hostId == pid then
      match ps.head? with
      | some newHost =>
        { r with hostId := newHost.id,
                 players := ps.map (fun p =>
                   if p.id == newHost.id then { p with isHost := true } else p) }
      | none => { r with players := ps }
    else
      { r with players := ps }

/-- A pending empty-room cleanup timer: set when a room empties, firing
2 minutes (120 s) later. -/
structure PendingCleanup where
  roomId : String
  fireAt : Nat
deriving DecidableEq, Repr

/-- The timed registry state: wall-clock seconds, live rooms, pending
empty-room cleanup timers, and the next fire time of the 5-minute sweep
interval started at boot. -/
structure SysState where
  now : Nat
  rooms : List Room
  cleanups : List PendingCleanup
  sweepNext : Nat
deriving DecidableEq, Repr

/-- Timed steps of the registry fragment: time passing, a member leaving a
lobby room (scheduling the 2-minute cleanup when the room empties, line
1009), a join into a lobby room with space (the `room:join` guards, lines
1588-1594), the cleanup timer firing, and the housekeeping sweep firing. -/
inductive SysStep : SysState → SysState → Prop
  | advance (s : SysState) (d : Nat) :
      SysStep s { s with now := s.now + d }
  | leave (s : SysState) (rid pid : String) (r : Room)
      (hr : lookupRoom s.rooms rid = some r)
      (hmem : (findPlayer r pid).isSome = true)
      (hphase : r.phase = "lobby") :
      SysStep s { s with
        rooms := replaceRoom s.rooms rid (leaveRoomL r pid),
        cleanups := if (leaveRoomL r pid).players.isEmpty
                    then s.cleanups ++ [⟨rid, s.now + 120⟩]
                    else s.cleanups }
  | join (s : SysState) (rid : String) (r : Room) (p : Player)
      (hr : lookupRoom s.rooms rid = some r)
      (hphase : r.phase = "lobby")
      (hspace : r.players.length < r.maxPlayers) :
      SysStep s { s with rooms := replaceRoom s.rooms rid (joinRoomL r p) }
  | fireCleanup (s : SysState) (c : PendingCleanup)
      (hc : c ∈ s.cleanups) (ht : s.now = c.fireAt) :
      SysStep s { s with rooms := cleanupFire s.rooms c.roomId,
                         cleanups := s.cleanups.erase c }
  | fireSweep (s : SysState) (ht : s.now = s.sweepNext) :
      SysStep s { s with rooms := sweepFire s.rooms,
                         sweepNext := s.sweepNext + 300 }

/-! ### Concrete sample states used by witnesses and counterexamples.
The sample room realises the spec's literal scenario S1: players A (host,
drawer) and B in room `ABCDEF`, `drawTime = 30`, word "chat" at
`timeLeft = 25`. -/

/-- Player A: host and current drawer of the sample room. -/
def alice : Player :=
  { id := "a", socketId := "sa", name := "A", avatar := "default", score := 0,
    isHost := true, isDrawing := true, hasGuessed := false, userId := none }

/-- Player B: the guesser of the sample room. -/
def bob : Player :=
  { id := "b", socketId := "sb", name := "B", avatar := "default", score := 0,
    isHost := false, isDrawing := false, hasGuessed := false, userId := none }

/-- The sample room in the drawing phase with word "chat" in play. -/
def sampleDrawingRoom : Room :=
  { id := "r1", code := "ABCDEF", hostId := "a", isPrivate := false,
    maxPlayers := 8, drawTime := 30, maxRounds := 1, theme := "general",
    phase := "drawing", round := 1, turn := 0, currentDrawer := some "a",
    currentWord := some "chat", maskedWord := maskWord "chat", wordLength := 4,
    timeLeft := 25, players := [alice, bob], guessedPlayers := [],
    createdAt := 0 }

/-- The sample room mid-draw at `drawTime = 50` (a value the settings clamp
admits) with `timeLeft = 29`: an input where the binary64 time bonus (57)
is one below the exact `29 * 100 / 50 = 58`. -/
def floatRoundingRoom : Room :=
  { sampleDrawingRoom with drawTime := 50, timeLeft := 29 }

/-- The sample room while the drawer is still choosing a word. -/
def sampleChoosingRoom : Room :=
  { sampleDrawingRoom with
    phase := "choosing", currentWord := none,
    maskedWord := "", wordLength := 0, timeLeft := 0 }

/-- The sample room in the post-turn phase (word no longer in play). -/
def sampleRoundEndRoom : Room :=
  { sampleDrawingRoom with phase := "roundEnd" }

/-- The sample room back in the lobby. -/
def sampleLobbyRoom : Room :=
  { sampleDrawingRoom with
    phase := "lobby", currentWord := none,
    currentDrawer := none, maskedWord := "", wordLength := 0, timeLeft := 0 }

/-! ### Derived notions used in the statements -/

/-- Cell alignment of a masked rendering with a word: splitting on the
separator yields one cell per character, each cell an underscore or exactly
that character of the word. -/
def cellsAligned (word : List Char) (cells : List (List Char)) : Prop :=
  cells.length = word.length ∧
    ∀ i, i < word.length →
      cells.getD i [] = ['_'] ∨ cells.getD i [] = [word.getD i ' ']

/-- The full-word payload field of an event, when it has one: only
`game:word` and `game:turn_end` carry the word in play verbatim. -/
def rawWordOf : GameEvent → Option String
  | GameEvent.gameWord w => some w
  | GameEvent.turnEnd w _ _ => w
  | _ => none

/-- Every emission in the list that carries a raw word is either the
drawer-only `game:word` or the room-wide `game:turn_end` reveal. -/
def onlyWordReveals (emits : List Emit) (drawer : Option String) : Prop :=
  ∀ e ∈ emits, rawWordOf e.2 ≠ none →
    (∃ w, e = (Target.toSocket drawer, GameEvent.gameWord w)) ∨
    (∃ w reason ag, e = (Target.toRoom, GameEvent.turnEnd w reason ag))

/-- The ordinary chat line built by the handler for a message that is not a
correct or close guess. -/
def plainChatMsg (r : Room) (p : Player) (pid msgId : String) (now : Nat)
    (raw : String) : ChatMsg :=
  { id := msgId, playerId := pid, playerName := p.name,
    message := jsTrim (jsSlice raw 200), timestamp := now, isClose := false,
    isGuess := r.phase == "drawing" && !(r.currentDrawer == some pid) }

/-! ### Concrete states for the timed cleanup counterexample and the
rehydration counterexample -/

/-- The only member of the room of the timed counterexample. -/
def soloPlayer : Player :=
  { id := "p1", socketId := "s1", name := "Solo", avatar := "default",
    score := 0, isHost := true, isDrawing := false, hasGuessed := false,
    userId := none }

/-- A lobby room holding only `soloPlayer`. -/
def soloLobbyRoom : Room :=
  { sampleLobbyRoom with
    id := "r9", code := "SOLO22", hostId := "p1", players := [soloPlayer] }

/-- Boot state: the solo lobby room is live, the 5-minute housekeeping sweep
will first fire at t = 300 s. -/
def sweepTrace0 : SysState :=
  { now := 0, rooms := [soloLobbyRoom], cleanups := [], sweepNext := 300 }

/-- 299 seconds pass. -/
def sweepTrace1 : SysState :=
  { sweepTrace0 with now := sweepTrace0.now + 299 }

/-- At t = 299 the only member leaves: the room empties and the 2-minute
cleanup is scheduled to fire at t = 419. -/
def sweepTrace2 : SysState :=
  { sweepTrace1 with
    rooms := replaceRoom sweepTrace1.rooms "r9" (leaveRoomL soloLobbyRoom "p1"),
    cleanups := if (leaveRoomL soloLobbyRoom "p1").players.isEmpty
                then sweepTrace1.cleanups ++ [⟨"r9", sweepTrace1.now + 120⟩]
                else sweepTrace1.cleanups }

/-- One more second passes. -/
def sweepTrace3 : SysState :=
  { sweepTrace2 with now := sweepTrace2.now + 1 }

/-- At t = 300 the housekeeping sweep fires and deletes the empty room, one
second after it emptied and 119 seconds before the scheduled cleanup. -/
def sweepTrace4 : SysState :=
  { sweepTrace3 with rooms := sweepFire sweepTrace3.rooms,
                     sweepNext := sweepTrace3.sweepNext + 300 }

/-- A persisted room row whose phase column holds "playing" (what
`startGame` writes, line 1071). -/
def dbRowPlaying : DbRoomRow :=
  { id := "r2", code := "ZZKKQQ", host_id := "h", is_private := 0,
    max_players := 8, draw_time := 80, max_rounds := 3, theme := none,
    phase := some "playing", created_at := 0 }

/-- A persisted player row with a nonzero score and the host flag set. -/
def dbPlayerRowSample : DbPlayerRow :=
  { id := "p2", socket_id := "s2", name := "P", avatar := none, score := 7,
    is_host := 1, user_id := none }

/-! ## Helper lemmas -/

/-- Lookup by id commutes with an id-preserving map over the player list. -/
theorem find?_map_presId (ps : List Player) (f : Player → Player) (s : String)
    (hid : ∀ p, (f p).id = p.id) :
    (ps.map f).find? (fun q => q.id == s) = (ps.find? (fun q => q.id == s)).map f := by
  induction ps with
  | nil => rfl
  | cons a t ih =>
    by_cases h : a.id = s
    · rw [List.map_cons, List.find?_cons_of_pos _ (by simp [hid, h]),
        List.find?_cons_of_pos _ (by simp [h])]
      rfl
    · rw [List.map_cons, List.find?_cons_of_neg _ (by simp [hid, h]),
        List.find?_cons_of_neg _ (by simp [h]), ih]

/-- Lookup through a `bumpScore` update. -/
theorem find?_bumpScore (ps : List Player) (pid s : String) (pts : Nat) :
    (bumpScore ps pid pts).find? (fun q => q.id == s) =
      (ps.find? (fun q => q.id == s)).map
        (fun q => if q.id == pid then { q with score := q.score + pts } else q) :=
  find?_map_presId ps _ s (fun q => by by_cases h : q.id == pid <;> simp [h])

/-- Lookup through a `setHasGuessed` update. -/
theorem find?_setHasGuessed (ps : List Player) (pid s : String) :
    (setHasGuessed ps pid).find? (fun q => q.id == s) =
      (ps.find? (fun q => q.id == s)).map
        (fun q => if q.id == pid then { q with hasGuessed := true } else q) :=
  find?_map_presId ps _ s (fun q => by by_cases h : q.id == pid <;> simp [h])

/-! ## Claim C1 — scoring of a correct guess -/

/-- C1 counterexample: in a drawing room with `drawTime = 50` (inside the
settings clamp [30,180]) and `timeLeft = 29`, B's correct first guess is
awarded `100 + 57 + 80 = 237` points — the program's binary64 evaluation of
`(29 / 50) * 100` is `57.99999999999999`, so its floor is 57 — while the
claim's exact formula `100 + ⌊29·100/50⌋ + 80` demands 238. -/
theorem scoring_ieee_rounding_counterexample :
    findPlayer (handleGuess floatRoundingRoom "b" "chat").1 "b" =
      some { bob with hasGuessed := true, score := 237 } ∧
    100 + floatRoundingRoom.timeLeft * 100 / floatRoundingRoom.drawTime +
      (100 - (insertGuessed floatRoundingRoom.guessedPlayers "b").length * 20) = 238 ∧
    jsTimeBonus 29 50 = 57 ∧
    29 * 100 / 50 = 58 := by
  decide

/-- C1 (amended): during the drawing phase, a correct guess by a non-drawer
player who has not yet guessed awards that player
`100 + jsTimeBonus timeLeft drawTime + (100 - k * 20)` points — the time
bonus being `Math.floor((timeLeft / drawTime) * 100)` in the binary64
arithmetic the program uses, which at some inputs is one below the exact
`timeLeft * 100 / drawTime` — where `k` is the size of `guessedPlayers`
after the player is inserted (truncated subtraction realises
`max(0, 100 - k*20)`), and the current drawer's score rises by exactly 25;
the `game:correct_guess` broadcast carries the same points. -/
theorem handleGuess_correct_scoring
    (r : Room) (pid msg w d : String) (p dp : Player)
    (hphase : r.phase = "drawing")
    (hw : r.currentWord = some w) (hwne : w ≠ "")
    (hd : r.currentDrawer = some d) (hpd : pid ≠ d)
    (hp : findPlayer r pid = some p) (hng : p.hasGuessed = false)
    (hdp : findPlayer r d = some dp)
    (hguess : jsTrim (jsToLower msg) = jsToLower w) :
    (handleGuess r pid msg).2.1 = ⟨true, false⟩ ∧
    findPlayer (handleGuess r pid msg).1 pid =
      some { p with hasGuessed := true,
                    score := p.score + (100 + jsTimeBonus r.timeLeft r.drawTime +
                      (100 - (insertGuessed r.guessedPlayers pid).length * 20)) } ∧
    findPlayer (handleGuess r pid msg).1 d = some { dp with score := dp.score + 25 } ∧
    (handleGuess r pid msg).1.guessedPlayers = insertGuessed r.guessedPlayers pid ∧
    (handleGuess r pid msg).2.2 =
      [(Target.toRoom, GameEvent.correctGuess pid p.name
        (100 + jsTimeBonus r.timeLeft r.drawTime +
          (100 - (insertGuessed r.guessedPlayers pid).length * 20)))] := by
  have hdp' : d ≠ pid := fun hh => hpd hh.symm
  have hpid : p.id = pid := by
    have h := List.find?_some (by simpa [findPlayer] using hp)
    simpa using h
  have hdid : dp.id = d := by
    have h := List.find?_some (by simpa [findPlayer] using hdp)
    simpa using h
  have hfal : jsFalsyWord r.currentWord = false := by
    rw [hw]; simp [jsFalsyWord, hwne]
  have hcd : (r.currentDrawer == some pid) = false := by
    rw [hd]; simp [hdp']
  have hgw : (jsTrim (jsToLower msg) == jsToLower (r.currentWord.getD "")) = true := by
    rw [hw]; simpa using hguess
  have h1 : (setHasGuessed r.players pid).find? (fun q => q.id == pid) =
      some { p with hasGuessed := true } := by
    rw [find?_setHasGuessed]
    unfold findPlayer at hp
    rw [hp]
    simp [hpid]
  have h1d : (setHasGuessed r.players pid).find? (fun q => q.id == d) = some dp := by
    rw [find?_setHasGuessed]
    unfold findPlayer at hdp
    rw [hdp]
    simp [hdid, hdp']
  set pts := 100 + jsTimeBonus r.timeLeft r.drawTime +
    (100 - (insertGuessed r.guessedPlayers pid).length * 20) with hpts
  have h2 : (bumpScore (setHasGuessed r.players pid) pid pts).find?
      (fun q => q.id == pid) =
      some { p with hasGuessed := true, score := p.score + pts } := by
    rw [find?_bumpScore, h1]
    simp [hpid]
  have h2d : (bumpScore (setHasGuessed r.players pid) pid pts).find?
      (fun q => q.id == d) = some dp := by
    rw [find?_bumpScore, h1d]
    simp [hdid, hdp']
  have h3 : (bumpScore (bumpScore (setHasGuessed r.players pid) pid pts) d 25).find?
      (fun q => q.id == pid) =
      some { p with hasGuessed := true, score := p.score + pts } := by
    rw [find?_bumpScore, h2]
    simp [hpid, hpd]
  have h3d : (bumpScore (bumpScore (setHasGuessed r.players pid) pid pts) d 25).find?
      (fun q => q.id == d) = some { dp with score := dp.score + 25 } := by
    rw [find?_bumpScore, h2d]
    simp [hdid]
  have hguard : (jsFalsyWord r.currentWord || (r.currentDrawer == some pid)
      || p.hasGuessed) = false := by
    rw [hfal, hcd, hng]; rfl
  unfold handleGuess
  rw [hp]
  dsimp only
  rw [if_neg (by rw [hguard]; simp)]
  rw [if_pos hgw]
  rw [hd]
  dsimp only
  rw [← hpts, h2d]
  simp only [Option.isSome_some, eq_self_iff_true, if_true]
  refine ⟨by trivial, ?_, ?_, by trivial, by trivial⟩
  · unfold findPlayer
    dsimp only
    exact h3
  · unfold findPlayer
    dsimp only
    exact h3d

/-- C1 witness: the spec's literal scenario S1.  B guesses "chat" in room
`ABCDEF` at `timeLeft = 25` of `drawTime = 30`: B is credited
`100 + 83 + 80` points and drawer A exactly 25. -/
theorem handleGuess_correct_scoring_witness :
    findPlayer (handleGuess sampleDrawingRoom "b" "chat").1 "b" =
      some { bob with hasGuessed := true,
                      score := bob.score + (100 +
                        jsTimeBonus sampleDrawingRoom.timeLeft sampleDrawingRoom.drawTime +
                        (100 - (insertGuessed sampleDrawingRoom.guessedPlayers "b").length * 20)) } ∧
    findPlayer (handleGuess sampleDrawingRoom "b" "chat").1 "a" =
      some { alice with score := alice.score + 25 } :=
  ⟨(handleGuess_correct_scoring sampleDrawingRoom "b" "chat" "chat" "a" bob alice
      rfl rfl (by decide) rfl (by decide) (by decide) (by decide) (by decide)
      (by decide)).2.1,
   (handleGuess_correct_scoring sampleDrawingRoom "b" "chat" "chat" "a" bob alice
      rfl rfl (by decide) rfl (by decide) (by decide) (by decide) (by decide)
      (by decide)).2.2.1⟩

/-! ## Claim C6 — close-guess classification -/

/-- C6: a non-correct guess is classified close exactly when it is at least
3 characters long and either (a) its length is within one of the word's and
at most two positions mismatch, or (b) one of the two strings contains the
other; `isCloseGuess` is applied by `handleGuess` to the lowercased, trimmed
guess and the lowercased word. -/
theorem isCloseGuess_iff_spec (g w : String) :
    isCloseGuess g w = true ↔ closeGuessSpec g w := by
  unfold isCloseGuess closeGuessSpec
  by_cases h3 : g.length < 3
  · simp only [if_pos h3]
    constructor
    · intro h; cases h
    · rintro ⟨h, -⟩; omega
  · have h3' : 3 ≤ g.length := by omega
    simp only [if_neg h3]
    by_cases ha : ((g.length : Int) - (w.length : Int)).natAbs ≤ 1
    · by_cases hm : mismatchCount g w ≤ 2
      · simp [ha, hm, h3']
      · simp [ha, hm, h3']
    · simp [ha, h3']

/-! ## Claim C2 — the masked-word rendering -/

/-- Unfold one step of `join(" ")` on at least two cells. -/
theorem intercalate_cons₂ (s a b : List Char) (l : List (List Char)) :
    List.intercalate s (a :: b :: l) = a ++ s ++ List.intercalate s (b :: l) := by
  simp [List.intercalate, List.intersperse_cons_cons]

/-- `join(" ")` of a single cell is the cell. -/
theorem intercalate_single (s a : List Char) : List.intercalate s [a] = a := by
  simp [List.intercalate]

/-- For a nonempty space-free word the masked rendering has `2n - 1`
characters (n underscores joined by n-1 separator spaces), not n. -/
theorem maskWordL_length (w : List Char) (hne : w ≠ []) (hsp : ∀ c ∈ w, c ≠ ' ') :
    (maskWordL w).length = 2 * w.length - 1 := by
  induction w with
  | nil => cases hne rfl
  | cons c t ih =>
    cases t with
    | nil =>
      simp [maskWordL, maskCellL, hsp c (by simp), intercalate_single]
    | cons c2 t2 =>
      have hc : maskCellL c = ['_'] := by simp [maskCellL, hsp c (by simp)]
      have ih2 := ih (by simp) (fun x hx => hsp x (List.mem_cons_of_mem _ hx))
      rw [maskWordL, List.map_cons, List.map_cons, intercalate_cons₂,
        List.length_append, List.length_append, hc]
      rw [maskWordL, List.map_cons] at ih2
      rw [ih2]
      simp
      omega

/-- Splitting the fresh mask of a space-free word on spaces recovers exactly
its cell list. -/
theorem splitCells_maskWordL (w : List Char) (hne : w ≠ []) (hsp : ∀ c ∈ w, c ≠ ' ') :
    splitCells (maskWordL w) = w.map maskCellL := by
  unfold splitCells maskWordL
  have hns : ∀ l ∈ w.map maskCellL, ' ' ∉ l := by
    intro l hl
    rcases List.mem_map.mp hl with ⟨c, hc, rfl⟩
    simp [maskCellL, hsp c hc]
  have hne' : w.map maskCellL ≠ [] := by simpa using hne
  simpa using List.splitOn_intercalate (w.map maskCellL) ' ' hns hne'

/-- The fresh mask of a space-free word is cell-aligned with it. -/
theorem cellsAligned_mask (w : List Char) (hne : w ≠ []) (hsp : ∀ c ∈ w, c ≠ ' ') :
    cellsAligned w (splitCells (maskWordL w)) := by
  rw [splitCells_maskWordL w hne hsp]
  refine ⟨by simp, ?_⟩
  intro i hi
  left
  rw [List.getD_eq_getElem?_getD, List.getElem?_map, List.getElem?_eq_getElem hi]
  simp [maskCellL, hsp _ (List.getElem_mem hi)]

/-- A hint reveal keeps the masked rendering cell-aligned with the word. -/
theorem cellsAligned_reveal (w : List Char) (hne : w ≠ []) (hsp : ∀ c ∈ w, c ≠ ' ')
    (m : List Char) (pick : Nat) (hal : cellsAligned w (splitCells m)) :
    cellsAligned w (splitCells (revealHintL w m pick)) := by
  unfold revealHintL
  set cells := splitCells m with hcells
  set hidden := (List.range w.length).filter
    (fun i => !(w.getD i ' ' == ' ') && (cells.getD i [] == ['_'])) with hhid
  cases hemp : hidden.isEmpty with
  | true =>
    rw [if_pos hemp]
    exact hal
  | false =>
    simp only [hemp, Bool.false_eq_true, if_false]
    have hlenpos : 0 < hidden.length := by
      cases hq : hidden with
      | nil => rw [hq] at hemp; simp at hemp
      | cons a l => simp [hq]
    set j := hidden.getD (pick % hidden.length) 0 with hj
    have hjmem : j ∈ hidden := by
      have hlt : pick % hidden.length < hidden.length := Nat.mod_lt _ hlenpos
      rw [hj, List.getD_eq_getElem?_getD, List.getElem?_eq_getElem hlt]
      exact List.getElem_mem hlt
    have hjfilter := List.mem_filter.mp hjmem
    have hjw : j < w.length := List.mem_range.mp hjfilter.1
    have hjcond := hjfilter.2
    have hjcell : cells.getD j [] = ['_'] := by
      have := (Bool.and_eq_true _ _).mp hjcond |>.2
      simpa using this
    have hclen : cells.length = w.length := hal.1
    have hwne0 : w.length ≠ 0 := by
      cases w with
      | nil => cases hne rfl
      | cons a l => simp
    have hgetmem : ∀ i, i < w.length → w.getD i ' ' ∈ w := by
      intro i hi
      rw [List.getD_eq_getElem?_getD, List.getElem?_eq_getElem hi]
      exact List.getElem_mem hi
    have hnosp : ∀ l ∈ cells.set j [w.getD j ' '], ' ' ∉ l := by
      intro l hl
      rcases List.mem_or_eq_of_mem_set hl with hmem | rfl
      · rcases List.mem_iff_getElem.mp hmem with ⟨i, hi, rfl⟩
        have hiw : i < w.length := by omega
        have := hal.2 i hiw
        rw [List.getD_eq_getElem?_getD, List.getElem?_eq_getElem hi] at this
        simp only [Option.getD_some] at this
        rcases this with h | h
        · rw [h]; simp
        · rw [h]
          simp only [List.mem_singleton]
          exact fun hh => hsp _ (hgetmem i hiw) hh.symm
      · simp only [List.mem_singleton]
        exact fun hh => hsp _ (hgetmem j hjw) hh.symm
    have hsetne : cells.set j [w.getD j ' '] ≠ [] := by
      intro h
      have := List.length_set cells j [w.getD j ' ']
      rw [h] at this
      simp at this
      omega
    have hsplit : splitCells (List.intercalate [' '] (cells.set j [w.getD j ' '])) =
        cells.set j [w.getD j ' '] := by
      unfold splitCells
      simpa using List.splitOn_intercalate _ ' ' hnosp hsetne
    rw [hsplit]
    refine ⟨by rw [List.length_set]; exact hclen, ?_⟩
    intro i hi
    by_cases hij : j = i
    · subst hij
      right
      rw [List.getD_eq_getElem?_getD, List.getElem?_set_self (by omega)]
      rfl
    · have := hal.2 i hi
      rw [List.getD_eq_getElem?_getD, List.getElem?_set_ne hij]
      rw [List.getD_eq_getElem?_getD] at this
      exact this

/-- C2 counterexample: on entering drawing with word "chat", the stored
`maskedWord` is "_ _ _ _" of length 7, not 4; and for "a-b" the non-letter
hyphen does not remain itself: every cell is an underscore. -/
theorem maskedWord_length_counterexample :
    ((selectWord sampleChoosingRoom "chat").1).currentWord = some "chat" ∧
    ((selectWord sampleChoosingRoom "chat").1).maskedWord.length ≠
      ("chat" : String).length ∧
    maskWord "a-b" = "_ _ _" := by
  decide

/-- C2 (amended): `selectWord` stores `maskWord currentWord`, the
space-joined rendering; for a nonempty space-free word it has `2n - 1`
characters, its space-split cells are one per character and each cell is an
underscore or the character at the same index, and hint reveals preserve
that alignment. -/
theorem maskedWord_render_invariant
    (w : List Char) (hne : w ≠ []) (hsp : ∀ c ∈ w, c ≠ ' ') :
    (∀ r word, ((selectWord r word).1).maskedWord = maskWord word) ∧
    (maskWordL w).length = 2 * w.length - 1 ∧
    cellsAligned w (splitCells (maskWordL w)) ∧
    (∀ m pick, cellsAligned w (splitCells m) →
      cellsAligned w (splitCells (revealHintL w m pick))) :=
  ⟨fun _ _ => rfl, maskWordL_length w hne hsp, cellsAligned_mask w hne hsp,
   fun m pick hal => cellsAligned_reveal w hne hsp m pick hal⟩

/-- C2 witness: the invariant evaluated on the word "chat". -/
theorem maskedWord_render_invariant_witness :
    ((selectWord sampleChoosingRoom "chat").1).maskedWord = maskWord "chat" ∧
    (maskWordL ("chat" : String).data).length =
      2 * ("chat" : String).data.length - 1 :=
  ⟨(maskedWord_render_invariant ("chat" : String).data (by decide) (by decide)).1
      sampleChoosingRoom "chat",
   (maskedWord_render_invariant ("chat" : String).data (by decide) (by decide)).2.1⟩

/-! ## Claim C3 — confinement of the word in play -/

/-- Every emission of `handleGuess` is a room-wide `game:correct_guess`. -/
theorem handleGuess_emits_shape (r : Room) (pid msg : String) :
    ∀ e ∈ (handleGuess r pid msg).2.2,
      ∃ a b c, e = (Target.toRoom, GameEvent.correctGuess a b c) := by
  unfold handleGuess
  cases hfp : findPlayer r pid with
  | none => simp
  | some p =>
    dsimp only
    split
    · simp
    · split
      · intro e he
        simp only [List.mem_singleton] at he
        exact ⟨_, _, _, he⟩
      · split <;> simp

/-- Every emission of the chat handler is a correct-guess broadcast, a
snapshot, a chat line, or the sender-only close-guess notice. -/
theorem chat_emits_shape (r : Room) (hist : List ChatMsg) (pid mid : String)
    (now : Nat) (raw : String) :
    ∀ e ∈ (chatMessageHandler r hist pid mid now raw).2.2,
      (∃ a b c, e = (Target.toRoom, GameEvent.correctGuess a b c)) ∨
      (∃ snap ps, e = (Target.toRoom, GameEvent.roomSync snap ps)) ∨
      (∃ m, e = (Target.toRoom, GameEvent.chatMessage m)) ∨
      (∃ s, e = (Target.toSocket (some pid), GameEvent.closeGuess s)) := by
  intro e he
  unfold chatMessageHandler at he
  cases hfp : findPlayer r pid with
  | none => rw [hfp] at he; simp at he
  | some p =>
    rw [hfp] at he
    dsimp only at he
    by_cases hraw : (raw == "") = true
    · rw [if_pos hraw] at he; simp at he
    rw [if_neg hraw] at he
    by_cases hmsg : (jsTrim (jsSlice raw 200) == "") = true
    · rw [if_pos hmsg] at he; simp at he
    rw [if_neg hmsg] at he
    by_cases hg : (r.phase == "drawing" && !(r.currentDrawer == some pid)
        && !p.hasGuessed) = true
    · rw [if_pos hg] at he
      by_cases hcor : (handleGuess r pid (jsTrim (jsSlice raw 200))).2.1.isCorrect = true
      · rw [if_pos hcor] at he
        dsimp only at he
        rcases List.mem_append.mp he with h | h
        · exact Or.inl (handleGuess_emits_shape _ _ _ e h)
        · exact Or.inr (Or.inl ⟨_, _, by simpa using h⟩)
      · rw [if_neg hcor] at he
        dsimp only at he
        rcases List.mem_append.mp he with h | h
        · rcases List.mem_append.mp h with h1 | h1
          · exact Or.inl (handleGuess_emits_shape _ _ _ e h1)
          · exact Or.inr (Or.inr (Or.inl ⟨_, by simpa using h1⟩))
        · by_cases hcl : (handleGuess r pid (jsTrim (jsSlice raw 200))).2.1.isClose = true
          · rw [if_pos hcl] at h
            exact Or.inr (Or.inr (Or.inr ⟨_, by simpa using h⟩))
          · rw [if_neg hcl] at h; simp at h
    · rw [if_neg hg] at he
      simp only [GuessResult.mk.injEq] at he
      dsimp only at he
      simp at he
      exact Or.inr (Or.inr (Or.inl ⟨_, he⟩))

/-- C3: the room snapshot does not depend on `currentWord` (it carries only
`wordLength` and `maskedWord`), and across the emissions of `selectWord`,
`endTurn`, the tick, `handleGuess`, the chat handler and `syncRoom`, the
only events carrying a raw word are the drawer-only `game:word` and the
room-wide `game:turn_end` reveal, which carries exactly the word in play. -/
theorem currentWord_confinement :
    (∀ r cw, snapshotOf { r with currentWord := cw } = snapshotOf r ∧
      playerSnapshots { r with currentWord := cw } = playerSnapshots r) ∧
    (∀ r word, onlyWordReveals (selectWord r word).2 r.currentDrawer) ∧
    (∀ r reason, onlyWordReveals (endTurn r reason).2 r.currentDrawer) ∧
    (∀ r pick, onlyWordReveals (tick r pick).2 r.currentDrawer) ∧
    (∀ r pid msg, onlyWordReveals (handleGuess r pid msg).2.2 r.currentDrawer) ∧
    (∀ r hist pid mid now raw,
      onlyWordReveals (chatMessageHandler r hist pid mid now raw).2.2 r.currentDrawer) ∧
    (∀ r, onlyWordReveals [syncEmit r] r.currentDrawer) ∧
    (∀ r reason, (endTurn r reason).2 =
      [(Target.toRoom, GameEvent.turnEnd r.currentWord reason
        (decide (r.players.length - 1 ≤ r.guessedPlayers.length)))]) := by
  refine ⟨fun r cw => ⟨rfl, rfl⟩, ?_, ?_, ?_, ?_, ?_, ?_, fun r reason => rfl⟩
  · intro r word e he hne
    simp only [selectWord, List.mem_cons, List.mem_singleton] at he
    rcases he with rfl | rfl | h
    · exact Or.inl ⟨word, rfl⟩
    · simp [rawWordOf] at hne
    · cases h
  · intro r reason e he hne
    simp only [endTurn, List.mem_singleton] at he
    subst he
    exact Or.inr ⟨_, _, _, rfl⟩
  · intro r pick e he hne
    unfold tick at he
    dsimp only at he
    split at he
    · simp only [endTurn, List.mem_singleton] at he
      subst he
      exact Or.inr ⟨_, _, _, rfl⟩
    · split at he
      · simp only [List.mem_cons, List.mem_singleton] at he
        rcases he with rfl | rfl | h
        · simp [rawWordOf] at hne
        · simp [rawWordOf] at hne
        · cases h
      · simp only [List.mem_singleton] at he
        subst he
        simp [rawWordOf] at hne
  · intro r pid msg e he hne
    rcases handleGuess_emits_shape r pid msg e he with ⟨a, b, c, rfl⟩
    simp [rawWordOf] at hne
  · intro r hist pid mid now raw e he hne
    rcases chat_emits_shape r hist pid mid now raw e he with
      ⟨a, b, c, rfl⟩ | ⟨s1, s2, rfl⟩ | ⟨m, rfl⟩ | ⟨s, rfl⟩ <;> simp [rawWordOf] at hne
  · intro r e he hne
    simp only [List.mem_singleton] at he
    subst he
    simp [syncEmit, rawWordOf] at hne

/-- C3 witness: in the sample room, the `game:word` emission of `selectWord`
is drawer-only, and the snapshot is unchanged when the word is replaced. -/
theorem currentWord_confinement_witness :
    ((∃ w, ((Target.toSocket sampleChoosingRoom.currentDrawer,
          GameEvent.gameWord "chat") : Emit) =
        (Target.toSocket sampleChoosingRoom.currentDrawer, GameEvent.gameWord w)) ∨
      (∃ w reason ag, ((Target.toSocket sampleChoosingRoom.currentDrawer,
          GameEvent.gameWord "chat") : Emit) =
        (Target.toRoom, GameEvent.turnEnd w reason ag))) ∧
    snapshotOf { sampleDrawingRoom with currentWord := some "zebra" } =
      snapshotOf sampleDrawingRoom :=
  ⟨currentWord_confinement.2.1 sampleChoosingRoom "chat" _ (by decide) (by decide),
   (currentWord_confinement.1 sampleDrawingRoom (some "zebra")).1⟩

/-! ## Claim C4 — room:settings authorisation and clamping -/

/-- The `drawTime` the settings mutation leaves behind. -/
theorem applySettings_drawTime (r : Room) (data : SettingsData) :
    (applySettings r data).drawTime =
      if truthyNat data.drawTime then max 30 (min 180 (data.drawTime.getD 0))
      else r.drawTime := by
  unfold applySettings
  dsimp only
  split <;> split <;> rfl

/-- The `maxRounds` the settings mutation leaves behind. -/
theorem applySettings_maxRounds (r : Room) (data : SettingsData) :
    (applySettings r data).maxRounds =
      if truthyNat data.maxRounds then max 1 (min 10 (data.maxRounds.getD 0))
      else r.maxRounds := by
  unfold applySettings
  dsimp only
  split <;> split <;> rfl

/-- C4 (amended): `room:settings` succeeds iff the sender is in a room and
is its host — the handler has no phase test; on success the provided fields
are clamped into [30,180] and [1,10] and absent or zero fields are left
unchanged; on failure the registry is unchanged. -/
theorem roomSettings_host_only_no_phase
    (rooms : List Room) (pid : String) (data : SettingsData) :
    ((roomSettingsHandler rooms pid data).2.success = true ↔
      ∃ r, findRoomOf rooms pid = some r ∧ r.hostId = pid) ∧
    ((roomSettingsHandler rooms pid data).2.success = false →
      (roomSettingsHandler rooms pid data).1 = rooms) ∧
    (∀ r, findRoomOf rooms pid = some r → r.hostId = pid →
      (roomSettingsHandler rooms pid data).1 =
        replaceRoom rooms r.id (applySettings r data)) ∧
    (∀ r t, data.drawTime = some t → t ≠ 0 →
      30 ≤ (applySettings r data).drawTime ∧ (applySettings r data).drawTime ≤ 180) ∧
    (∀ r n, data.maxRounds = some n → n ≠ 0 →
      1 ≤ (applySettings r data).maxRounds ∧ (applySettings r data).maxRounds ≤ 10) ∧
    (∀ r, truthyNat data.drawTime = false →
      (applySettings r data).drawTime = r.drawTime) ∧
    (∀ r, truthyNat data.maxRounds = false →
      (applySettings r data).maxRounds = r.maxRounds) := by
  refine ⟨?_, ?_, ?_, ?_, ?_, ?_, ?_⟩
  · unfold roomSettingsHandler
    cases hf : findRoomOf rooms pid with
    | none => simp
    | some r =>
      dsimp only
      by_cases hh : (r.hostId == pid) = true
      · simp [hh]
        exact beq_iff_eq.mp hh
      · simp [hh]
        intro hh2
        exact absurd (beq_iff_eq.mpr hh2) (by simpa using hh)
  · unfold roomSettingsHandler
    cases hf : findRoomOf rooms pid with
    | none => simp
    | some r =>
      dsimp only
      by_cases hh : (r.hostId == pid) = true
      · simp [hh]
      · simp [hh]
  · intro r hf hh
    unfold roomSettingsHandler
    rw [hf]
    dsimp only
    rw [if_neg (by simp [hh])]
  · intro r t ht ht0
    have htr : truthyNat data.drawTime = true := by
      rw [ht]; simp [truthyNat, ht0]
    rw [applySettings_drawTime, if_pos htr, ht]
    simp only [Option.getD_some, Nat.max_def, Nat.min_def]
    split_ifs <;> omega
  · intro r n hn hn0
    have hnr : truthyNat data.maxRounds = true := by
      rw [hn]; simp [truthyNat, hn0]
    rw [applySettings_maxRounds, if_pos hnr, hn]
    simp only [Option.getD_some, Nat.max_def, Nat.min_def]
    split_ifs <;> omega
  · intro r hfalse
    rw [applySettings_drawTime, if_neg (by simp [hfalse])]
  · intro r hfalse
    rw [applySettings_maxRounds, if_neg (by simp [hfalse])]

/-- C4 counterexample: the host updates settings while the room is in the
drawing phase — the handler replies success and mutates the room. -/
theorem roomSettings_succeeds_mid_game :
    sampleDrawingRoom.phase ≠ "lobby" ∧
    (roomSettingsHandler [sampleDrawingRoom] "a"
      { drawTime := some 50, maxRounds := none }).2.success = true ∧
    (roomSettingsHandler [sampleDrawingRoom] "a"
      { drawTime := some 50, maxRounds := none }).1 =
      [{ sampleDrawingRoom with drawTime := 50 }] := by
  decide

/-- C4 witness: a non-host request leaves the registry unchanged, and an
out-of-range drawTime is clamped into [30,180]. -/
theorem roomSettings_host_only_no_phase_witness :
    (roomSettingsHandler [sampleLobbyRoom] "b"
      { drawTime := some 50, maxRounds := none }).1 = [sampleLobbyRoom] ∧
    (30 ≤ (applySettings sampleLobbyRoom
        { drawTime := some 500, maxRounds := none }).drawTime ∧
      (applySettings sampleLobbyRoom
        { drawTime := some 500, maxRounds := none }).drawTime ≤ 180) :=
  ⟨(roomSettings_host_only_no_phase [sampleLobbyRoom] "b"
      { drawTime := some 50, maxRounds := none }).2.1 (by decide),
   (roomSettings_host_only_no_phase [sampleLobbyRoom] "b"
      { drawTime := some 500, maxRounds := none }).2.2.2.1 sampleLobbyRoom 500
      rfl (by decide)⟩

/-! ## Claim C5 — drawing-event forwarding -/

/-- C5 (amended): a draw event is forwarded (verbatim, to every member but
the sender) iff the sender is in a room and is its `currentDrawer`; the
handlers test no phase. -/
theorem draw_forward_iff (rooms : List Room) (pid data : String) :
    (drawStrokeHandler rooms pid data ≠ [] ↔
      ∃ r, findRoomOf rooms pid = some r ∧ r.currentDrawer = some pid) ∧
    (∀ r, findRoomOf rooms pid = some r → r.currentDrawer = some pid →
      drawStrokeHandler rooms pid data =
        [(Target.toRoomExceptSender, GameEvent.drawStroke data)] ∧
      drawClearHandler rooms pid = [(Target.toRoomExceptSender, GameEvent.drawClear)] ∧
      drawUndoHandler rooms pid = [(Target.toRoomExceptSender, GameEvent.drawUndo)]) ∧
    (∀ r, findRoomOf rooms pid = some r → r.currentDrawer ≠ some pid →
      drawStrokeHandler rooms pid data = [] ∧ drawClearHandler rooms pid = [] ∧
      drawUndoHandler rooms pid = []) ∧
    (findRoomOf rooms pid = none →
      drawStrokeHandler rooms pid data = [] ∧ drawClearHandler rooms pid = [] ∧
      drawUndoHandler rooms pid = []) := by
  refine ⟨?_, ?_, ?_, ?_⟩
  · unfold drawStrokeHandler
    cases hf : findRoomOf rooms pid with
    | none => simp
    | some r =>
      dsimp only
      by_cases hcd : (r.currentDrawer == some pid) = true
      · simp [hcd]
        exact beq_iff_eq.mp hcd
      · simp [hcd]
        intro hcd2
        exact absurd (beq_iff_eq.mpr hcd2) (by simpa using hcd)
  · intro r hf hcd
    unfold drawStrokeHandler drawClearHandler drawUndoHandler
    rw [hf]
    dsimp only
    rw [if_neg (by simp [hcd]), if_neg (by simp [hcd]), if_neg (by simp [hcd])]
    exact ⟨rfl, rfl, rfl⟩
  · intro r hf hcd
    unfold drawStrokeHandler drawClearHandler drawUndoHandler
    rw [hf]
    dsimp only
    rw [if_pos (by simp [hcd]), if_pos (by simp [hcd]), if_pos (by simp [hcd])]
    exact ⟨rfl, rfl, rfl⟩
  · intro hf
    unfold drawStrokeHandler drawClearHandler drawUndoHandler
    rw [hf]
    exact ⟨rfl, rfl, rfl⟩

/-- C5 counterexample: the drawer's stroke and clear are forwarded while the
room is in roundEnd, not drawing. -/
theorem draw_forwarded_outside_drawing :
    sampleRoundEndRoom.phase ≠ "drawing" ∧
    drawStrokeHandler [sampleRoundEndRoom] "a" "stroke-payload" =
      [(Target.toRoomExceptSender, GameEvent.drawStroke "stroke-payload")] ∧
    drawClearHandler [sampleRoundEndRoom] "a" =
      [(Target.toRoomExceptSender, GameEvent.drawClear)] := by
  decide

/-- C5 witness: the drawer's stroke is forwarded, a guesser's is dropped. -/
theorem draw_forward_iff_witness :
    drawStrokeHandler [sampleDrawingRoom] "a" "s1" =
      [(Target.toRoomExceptSender, GameEvent.drawStroke "s1")] ∧
    drawStrokeHandler [sampleDrawingRoom] "b" "s1" = [] :=
  ⟨((draw_forward_iff [sampleDrawingRoom] "a" "s1").2.1 sampleDrawingRoom
      (by decide) (by decide)).1,
   ((draw_forward_iff [sampleDrawingRoom] "b" "s1").2.2.1 sampleDrawingRoom
      (by decide) (by decide)).1⟩

/-! ## Claim C7 — chat-message validation -/

/-- Truncating twice to 200 characters is the same as truncating once. -/
theorem jsSlice_idem (raw : String) : jsSlice (jsSlice raw 200) 200 = jsSlice raw 200 := by
  unfold jsSlice
  simp [List.take_take]

/-- The 200-character truncation is empty exactly for the empty string. -/
theorem jsSlice_empty_iff (raw : String) : jsSlice raw 200 = "" ↔ raw = "" := by
  unfold jsSlice
  constructor
  · intro h
    have hd : (raw.data.take 200) = [] := congrArg String.data h
    rcases List.take_eq_nil_iff.mp hd with h2 | h2
    · cases h2
    · cases raw
      simp at h2
      simp [h2]
  · rintro rfl
    rfl

/-- A chat message that survives validation always produces emissions. -/
theorem chat_emits_nonempty (r : Room) (history : List ChatMsg)
    (pid msgId : String) (now : Nat) (raw : String) (p : Player)
    (hp : findPlayer r pid = some p) (hraw : raw ≠ "")
    (hm : jsTrim (jsSlice raw 200) ≠ "") :
    (chatMessageHandler r history pid msgId now raw).2.2 ≠ [] := by
  unfold chatMessageHandler
  rw [hp]
  dsimp only
  rw [if_neg (by simpa using hraw), if_neg (by simpa using hm)]
  by_cases hcor : (if (r.phase == "drawing" && !(r.currentDrawer == some pid)
      && !p.hasGuessed) = true then handleGuess r pid (jsTrim (jsSlice raw 200))
      else (r, ⟨false, false⟩, [])).2.1.isCorrect = true
  · rw [if_pos hcor]
    simp
  · rw [if_neg hcor]
    simp

/-- C7 (amended): a chat event is dropped (room, history and emissions
untouched) iff the sender resolves to no player, the raw message is falsy,
or the message truncated to 200 characters and then trimmed is empty; the
handler behaves identically on the raw message and on its 200-character
truncation — an over-long message is truncated, not rejected. -/
theorem chat_reject_iff (r : Room) (history : List ChatMsg)
    (pid msgId : String) (now : Nat) (raw : String) :
    (chatMessageHandler r history pid msgId now raw = (r, history, []) ↔
      findPlayer r pid = none ∨ raw = "" ∨ jsTrim (jsSlice raw 200) = "") ∧
    chatMessageHandler r history pid msgId now raw =
      chatMessageHandler r history pid msgId now (jsSlice raw 200) := by
  constructor
  · constructor
    · intro h
      by_cases hfp : findPlayer r pid = none
      · exact Or.inl hfp
      by_cases hraw : raw = ""
      · exact Or.inr (Or.inl hraw)
      by_cases hm : jsTrim (jsSlice raw 200) = ""
      · exact Or.inr (Or.inr hm)
      rcases Option.ne_none_iff_exists'.mp hfp with ⟨p, hp⟩
      have := chat_emits_nonempty r history pid msgId now raw p hp hraw hm
      rw [h] at this
      exact absurd rfl this
    · intro h
      unfold chatMessageHandler
      rcases h with h | h | h
      · rw [h]
      · cases hfp : findPlayer r pid with
        | none => rfl
        | some p =>
          dsimp only
          rw [if_pos (by simpa using h)]
      · cases hfp : findPlayer r pid with
        | none => rfl
        | some p =>
          dsimp only
          by_cases hraw : (raw == "") = true
          · rw [if_pos hraw]
          · rw [if_neg hraw, if_pos (by simpa using h)]
  · have hz : ((jsSlice raw 200 : String) == "") = (raw == "") := by
      by_cases h : raw = ""
      · subst h; rfl
      · have h2 : jsSlice raw 200 ≠ "" := fun hh => h ((jsSlice_empty_iff raw).mp hh)
        simp [h, h2]
    unfold chatMessageHandler
    cases hfp : findPlayer r pid with
    | none => rfl
    | some p =>
      dsimp only
      rw [jsSlice_idem, hz]

set_option maxRecDepth 16384 in
/-- C7 counterexample: a 201-character message is not rejected — it is
truncated to its first 200 characters, appended to the history and
broadcast. -/
theorem chat_long_message_not_rejected :
    (String.mk (List.replicate 201 'a')).length > 200 ∧
    (chatMessageHandler sampleLobbyRoom [] "b" "m1" 7
        (String.mk (List.replicate 201 'a'))).2.1 =
      [{ id := "m1", playerId := "b", playerName := "B",
         message := String.mk (List.replicate 200 'a'), timestamp := 7,
         isClose := false, isGuess := false }] ∧
    (chatMessageHandler sampleLobbyRoom [] "b" "m1" 7
        (String.mk (List.replicate 201 'a'))).2.2 =
      [(Target.toRoom, GameEvent.chatMessage
        { id := "m1", playerId := "b", playerName := "B",
          message := String.mk (List.replicate 200 'a'), timestamp := 7,
          isClose := false, isGuess := false })] := by
  decide

/-- C7 witness: an all-whitespace message is dropped whole; a one-character
message is processed unchanged by the truncation. -/
theorem chat_reject_iff_witness :
    chatMessageHandler sampleLobbyRoom [] "b" "m2" 8 "   " =
      (sampleLobbyRoom, [], []) ∧
    chatMessageHandler sampleLobbyRoom [] "b" "m2" 8 "yo" =
      chatMessageHandler sampleLobbyRoom [] "b" "m2" 8 (jsSlice "yo" 200) :=
  ⟨(chat_reject_iff sampleLobbyRoom [] "b" "m2" 8 "   ").1.mpr
      (Or.inr (Or.inr (by decide))),
   (chat_reject_iff sampleLobbyRoom [] "b" "m2" 8 "yo").2⟩

/-! ## Claim C10 — no double award: drawer and already-guessed chat lines -/

/-- C10: during drawing, a chat line from the current drawer or from a
player whose `hasGuessed` flag is set skips guess arbitration entirely: the
room (scores, `guessedPlayers`, flags) is unchanged and the message is
broadcast as an ordinary chat line with `isClose = false`. -/
theorem chat_skips_arbitration (r : Room) (history : List ChatMsg)
    (pid msgId : String) (now : Nat) (raw : String) (p : Player)
    (hp : findPlayer r pid = some p)
    (hphase : r.phase = "drawing")
    (hskip : r.currentDrawer = some pid ∨ p.hasGuessed = true)
    (hraw : raw ≠ "")
    (hm : jsTrim (jsSlice raw 200) ≠ "") :
    chatMessageHandler r history pid msgId now raw =
      (r, pushHistory history (plainChatMsg r p pid msgId now raw),
        [(Target.toRoom, GameEvent.chatMessage (plainChatMsg r p pid msgId now raw))]) := by
  have hgate : (r.phase == "drawing" && !(r.currentDrawer == some pid)
      && !p.hasGuessed) = false := by
    rcases hskip with h | h
    · simp [h]
    · simp [h]
  unfold chatMessageHandler
  rw [hp]
  dsimp only
  rw [if_neg (by simpa using hraw), if_neg (by simpa using hm), hgate]
  simp [plainChatMsg, pushHistory]

/-- C10 witness: the drawer types the current word in chat during drawing;
nothing is scored and the line is broadcast as plain chat. -/
theorem chat_skips_arbitration_witness :
    chatMessageHandler sampleDrawingRoom [] "a" "m3" 9 "chat" =
      (sampleDrawingRoom,
        pushHistory [] (plainChatMsg sampleDrawingRoom alice "a" "m3" 9 "chat"),
        [(Target.toRoom, GameEvent.chatMessage
          (plainChatMsg sampleDrawingRoom alice "a" "m3" 9 "chat"))]) :=
  chat_skips_arbitration sampleDrawingRoom [] "a" "m3" 9 "chat" alice
    (by decide) rfl (Or.inl rfl) (by decide) (by decide)

/-! ## Claim C8 — rehydration from the persistence store -/

/-- C8 (amended): a rehydrated room has no word, no timer-driven state and
reset per-player flags, but its phase is `roomData.phase || "lobby"` — the
persisted phase is kept whenever it is truthy, not forced to lobby. -/
theorem rehydration_resets (row : DbRoomRow) (ps : List DbPlayerRow) :
    (reconstructRoomFromDb row ps).phase = jsOrStr row.phase "lobby" ∧
    (reconstructRoomFromDb row ps).currentWord = none ∧
    (reconstructRoomFromDb row ps).timeLeft = 0 ∧
    (reconstructRoomFromDb row ps).round = 0 ∧
    (reconstructRoomFromDb row ps).turn = 0 ∧
    (reconstructRoomFromDb row ps).currentDrawer = none ∧
    (reconstructRoomFromDb row ps).guessedPlayers = [] ∧
    (reconstructRoomFromDb row ps).maskedWord = "" ∧
    ∀ p ∈ (reconstructRoomFromDb row ps).players,
      p.isDrawing = false ∧ p.hasGuessed = false := by
  refine ⟨rfl, rfl, rfl, rfl, rfl, rfl, rfl, rfl, ?_⟩
  intro p hp
  unfold reconstructRoomFromDb at hp
  dsimp only at hp
  rcases List.mem_map.mp hp with ⟨q, hq, rfl⟩
  exact ⟨rfl, rfl⟩

/-- C8 counterexample: a room persisted mid-game (phase column "playing")
is rehydrated with phase "playing", not "lobby". -/
theorem rehydrated_room_keeps_playing_phase :
    (reconstructRoomFromDb dbRowPlaying [dbPlayerRowSample]).phase = "playing" ∧
    ("playing" : String) ≠ "lobby" ∧
    (reconstructRoomFromDb dbRowPlaying [dbPlayerRowSample]).currentWord = none ∧
    (reconstructRoomFromDb dbRowPlaying [dbPlayerRowSample]).timeLeft = 0 := by
  decide

/-- C8 witness: the reset fields on the concrete "playing" row, and the
reset flags of its loaded player. -/
theorem rehydration_resets_witness :
    (reconstructRoomFromDb dbRowPlaying [dbPlayerRowSample]).currentWord = none ∧
    (reconstructRoomFromDb dbRowPlaying [dbPlayerRowSample]).phase =
      jsOrStr dbRowPlaying.phase "lobby" ∧
    ({ id := "p2", socketId := "s2", name := "P", avatar := "default",
       score := 7, isHost := true, isDrawing := false, hasGuessed := false,
       userId := none } : Player).isDrawing = false :=
  ⟨(rehydration_resets dbRowPlaying [dbPlayerRowSample]).2.1,
   (rehydration_resets dbRowPlaying [dbPlayerRowSample]).1,
   ((rehydration_resets dbRowPlaying [dbPlayerRowSample]).2.2.2.2.2.2.2.2 _
      (by decide)).1⟩

/-! ## Claim C9 — empty-room cleanup against the housekeeping sweep -/

/-- C9 (amended): the 2-minute cleanup destroys the room only if it is still
empty when it fires, so a room repopulated by a join survives; a join into a
lobby room with space succeeds regardless of pending cleanups; the 5-minute
housekeeping sweep spares non-empty rooms — but (see the counterexample) it
deletes empty rooms with no grace check. -/
theorem emptyRoom_cleanup_guard (rooms : List Room) (rid : String) (r : Room) :
    (lookupRoom rooms rid = some r → r.players.isEmpty = false →
      cleanupFire rooms rid = rooms) ∧
    (lookupRoom rooms rid = some r → r.players.isEmpty = true →
      cleanupFire rooms rid = removeRoom rooms rid) ∧
    (∀ s : SysState, ∀ p : Player, lookupRoom s.rooms rid = some r →
      r.phase = "lobby" → r.players.length < r.maxPlayers →
      SysStep s { s with rooms := replaceRoom s.rooms rid (joinRoomL r p) }) ∧
    (∀ q ∈ rooms, q.players.isEmpty = false → q ∈ sweepFire rooms) := by
  refine ⟨?_, ?_, ?_, ?_⟩
  · intro hl he
    unfold cleanupFire
    rw [hl]
    simp [he]
  · intro hl he
    unfold cleanupFire
    rw [hl]
    simp [he]
  · intro s p hl hphase hspace
    exact SysStep.join s rid r p hl hphase hspace
  · intro q hq he
    unfold sweepFire
    exact List.mem_filter.mpr ⟨hq, by simp [he]⟩

/-- C9 counterexample: the room empties at t = 299 and its cleanup is
scheduled for t = 419, but the housekeeping sweep fires at t = 300 and
destroys the room — one second after it emptied, 119 seconds before the
2-minute grace elapses. -/
theorem sweep_destroys_before_grace :
    SysStep sweepTrace0 sweepTrace1 ∧
    SysStep sweepTrace1 sweepTrace2 ∧
    SysStep sweepTrace2 sweepTrace3 ∧
    SysStep sweepTrace3 sweepTrace4 ∧
    sweepTrace2.cleanups = [⟨"r9", 419⟩] ∧
    lookupRoom sweepTrace2.rooms "r9" ≠ none ∧
    lookupRoom sweepTrace4.rooms "r9" = none ∧
    sweepTrace2.now = 299 ∧
    sweepTrace4.now = 300 ∧
    300 < 419 := by
  refine ⟨SysStep.advance sweepTrace0 299,
    SysStep.leave sweepTrace1 "r9" "p1" soloLobbyRoom (by decide) (by decide) (by decide),
    SysStep.advance sweepTrace2 1,
    SysStep.fireSweep sweepTrace3 (by decide),
    by decide, by decide, by decide, by decide, by decide, by decide⟩

/-- C9 witness: the cleanup guard on the concrete solo room — a no-op while
the room is populated, deletion once it is empty. -/
theorem emptyRoom_cleanup_guard_witness :
    cleanupFire [soloLobbyRoom] "r9" = [soloLobbyRoom] ∧
    cleanupFire [leaveRoomL soloLobbyRoom "p1"] "r9" =
      removeRoom [leaveRoomL soloLobbyRoom "p1"] "r9" :=
  ⟨(emptyRoom_cleanup_guard [soloLobbyRoom] "r9" soloLobbyRoom).1
      (by decide) (by decide),
   (emptyRoom_cleanup_guard [leaveRoomL soloLobbyRoom "p1"] "r9"
      (leaveRoomL soloLobbyRoom "p1")).2.1 (by decide) (by decide)⟩

end Drawly
